import Mathlib

/-! # evilginx2 `core/nameserver.go`: the authoritative DNS responder

A shallow embedding of `src/evilginx2/core/nameserver.go`.

* Go strings are Lean `String`s (sequences of runes; valid UTF-8 only).
* Go `int` is `Int`; the conversions `uint32(x)` and `uint16(x)` keep the low
  32 / 16 bits, written with an explicit `% 2 ^ w`.
* A Go `map[string]T` is a finite partial function `String → Option T`;
  `m[k] = v` is a pointwise update and `v, ok := m[k]` is application.
* `handleRequest` is a function of the receiver and the request that returns
  the list of messages handed to `w.WriteMsg`, or `none` when the body stops
  with a run-time error (index out of range on `Question[0]`).
* The pieces of the Go standard library and of `github.com/miekg/dns` that
  the file calls are not part of the repository: the rune table of
  `strings.ToLower` and `net.ParseIP` are parameters (`Lib`), the record types
  and `Msg.SetReply` are transcribed from the library.
* `log.Debug` only writes to the log and is left out.
-/

namespace Core

/-! ## Library side -/

/-- The two library tables the handler relies on: `unicode.ToLower` (the rune
map behind `strings.ToLower`) and `net.ParseIP` (`none` is the nil `net.IP`
returned for a malformed literal). -/
structure Lib where
  unicodeToLower : Char → Char
  ParseIP : String → Option (List Nat)

/-- Go `strings.ToLower`: every rune is replaced by its lower-case rune. -/
def ToLower (L : Lib) (s : String) : String :=
  String.mk (s.data.map L.unicodeToLower)

/-- Go `strconv.Itoa`: decimal representation of an `int`. -/
def Itoa (i : Int) : String :=
  toString i

/-- Go conversion `uint32(x)` of an `int`. -/
def uint32 (x : Int) : Nat :=
  (x % 2 ^ 32).toNat

/-- Go conversion `uint16(x)` of an `int`. -/
def uint16 (x : Int) : Nat :=
  (x % 2 ^ 16).toNat

def TypeA : Nat := 1
def TypeNS : Nat := 2
def TypeSOA : Nat := 6
def TypeMX : Nat := 15
def TypeTXT : Nat := 16
def ClassINET : Nat := 1

/-- The type `dns.RR_Header`. -/
structure RR_Header where
  Name : String
  Rrtype : Nat
  Class : Nat
  Ttl : Nat
  Rdlength : Nat := 0
  deriving DecidableEq, Repr

/-- The resource records the handler builds (`dns.A`, `dns.NS`, `dns.TXT`,
`dns.MX`, `dns.SOA`). -/
inductive RR where
  | A (Hdr : RR_Header) (A : Option (List Nat))
  | NS (Hdr : RR_Header) (Ns : String)
  | TXT (Hdr : RR_Header) (Txt : List String)
  | MX (Hdr : RR_Header) (Preference : Nat) (Mx : String)
  | SOA (Hdr : RR_Header) (Ns : String) (Mbox : String) (Serial : Nat)
      (Refresh : Nat) (Retry : Nat) (Expire : Nat) (Minttl : Nat)
  deriving DecidableEq, Repr

/-- The type `dns.Question`. -/
structure Question where
  Name : String
  Qtype : Nat
  Qclass : Nat
  deriving DecidableEq, Repr

/-- The type `dns.Msg` (header fields inlined). -/
structure Msg where
  Id : Nat := 0
  Response : Bool := false
  Opcode : Nat := 0
  Authoritative : Bool := false
  Truncated : Bool := false
  RecursionDesired : Bool := false
  RecursionAvailable : Bool := false
  Zero : Bool := false
  AuthenticatedData : Bool := false
  CheckingDisabled : Bool := false
  Rcode : Nat := 0
  Compress : Bool := false
  Question : List Question := []
  Answer : List RR := []
  Ns : List RR := []
  Extra : List RR := []
  deriving DecidableEq, Repr

def OpcodeQuery : Nat := 0
def RcodeSuccess : Nat := 0

/-- The method `(*dns.Msg).SetReply`: copies the id, sets the response bit,
copies opcode (and, for a standard query, the rd and cd bits), clears the
rcode and keeps only the first question of the request. -/
def SetReply (m : Msg) (request : Msg) : Msg :=
  let m := { m with Id := request.Id, Response := true, Opcode := request.Opcode }
  let m := if m.Opcode = OpcodeQuery then
      { m with RecursionDesired := request.RecursionDesired,
               CheckingDisabled := request.CheckingDisabled }
    else m
  let m := { m with Rcode := RcodeSuccess }
  match request.Question with
  | q :: _ => { m with Question := [q] }
  | [] => m

/-- A Go `map[string]T`. -/
abbrev GoMap (α : Type) := String → Option α

/-- The empty map `make(map[string]T)`. -/
def GoMap.make {α : Type} : GoMap α :=
  fun _ => none

/-- The assignment `m[k] = v`. -/
def GoMap.set {α : Type} (m : GoMap α) (k : String) (v : α) : GoMap α :=
  fun k' => if k' = k then some v else m k'

/-- The registered patterns of `dns.DefaultServeMux` that point at the
handler, most recent first. -/
abbrev ServeMux := List String

/-- The call `dns.HandleFunc(pattern, handler)`. -/
def HandleFunc (pattern : String) (mux : ServeMux) : ServeMux :=
  pattern :: mux

/-! ## `nameserver.go` -/

/-- The two fields of `Config` read by this file. -/
structure Config where
  baseDomain : String
  serverIP : String
  deriving DecidableEq, Repr

structure TXTField where
  fqdn : String
  value : String
  ttl : Int
  deriving DecidableEq, Repr

structure MXField where
  fqdn : String
  value : String
  preference : Int
  ttl : Int
  deriving DecidableEq, Repr

/-- The `Nameserver` struct. The field `srv` is only written by `Start`,
which is not modelled. -/
structure Nameserver where
  cfg : Config
  serial : Nat
  txt : GoMap TXTField
  mx : GoMap MXField

def pdom (domain : String) : String :=
  domain ++ "."

/-- The method `Reset`: registers the handler for `pdom(baseDomain)`; no
field of the receiver is written. -/
def Reset (n : Nameserver) (mux : ServeMux) : ServeMux :=
  HandleFunc (pdom n.cfg.baseDomain) mux

/-- The constructor `NewNameserver`, with `now` the value of
`time.Now().Unix()`. The returned error is always nil. -/
def NewNameserver (now : Int) (cfg : Config) (mux : ServeMux) : Nameserver × ServeMux :=
  let n : Nameserver :=
    { serial := uint32 now, cfg := cfg, txt := GoMap.make, mx := GoMap.make }
  (n, Reset n mux)

def AddTXT (n : Nameserver) (fqdn : String) (value : String) (ttl : Int) : Nameserver :=
  let txt : TXTField := { fqdn := fqdn, value := value, ttl := ttl }
  { n with txt := n.txt.set fqdn txt }

def AddMX (n : Nameserver) (fqdn : String) (value : String) (preference : Int)
    (ttl : Int) : Nameserver :=
  let mx : MXField := { fqdn := fqdn, value := value, preference := preference, ttl := ttl }
  { n with mx := n.mx.set fqdn mx }

def ClearTXT (n : Nameserver) : Nameserver :=
  { n with txt := GoMap.make }

/-- The method `handleRequest`. The result is the list of messages passed to
`w.WriteMsg`; `none` is the index-out-of-range panic of `Question[0]`. -/
def handleRequest (L : Lib) (n : Nameserver) (r : Msg) : Option (List Msg) := do
  let m : Msg := SetReply {} r
  if n.cfg.baseDomain = "" ∨ n.cfg.serverIP = "" then
    return []
  let soa : RR := RR.SOA
    { Name := pdom n.cfg.baseDomain, Rrtype := TypeSOA, Class := ClassINET, Ttl := 300 }
    ("ns1." ++ pdom n.cfg.baseDomain)
    ("hostmaster." ++ pdom n.cfg.baseDomain)
    n.serial 900 900 1800 60
  let m := { m with Ns := [soa] }
  let rq0 ← r.Question[0]?
  if rq0.Qtype = TypeA then
    let mq0 ← m.Question[0]?
    let rr : RR := RR.A
      { Name := mq0.Name, Rrtype := TypeA, Class := ClassINET, Ttl := 300 }
      (L.ParseIP n.cfg.serverIP)
    let m := { m with Answer := m.Answer ++ [rr] }
    return [m]
  else if rq0.Qtype = TypeNS then
    let rq0' ← r.Question[0]?
    if ToLower L rq0'.Name = pdom n.cfg.baseDomain then
      let m := ([1, 2] : List Int).foldl
        (fun (m : Msg) (i : Int) =>
          let rr : RR := RR.NS
            { Name := pdom n.cfg.baseDomain, Rrtype := TypeNS, Class := ClassINET, Ttl := 300 }
            ("ns" ++ Itoa i ++ "." ++ pdom n.cfg.baseDomain)
          { m with Answer := m.Answer ++ [rr] })
        m
      return [m]
    else
      return [m]
  else if rq0.Qtype = TypeTXT then
    let mq0 ← m.Question[0]?
    match n.txt (ToLower L mq0.Name) with
    | some txt =>
      let mq0' ← m.Question[0]?
      let rr : RR := RR.TXT
        { Name := mq0'.Name, Rrtype := TypeTXT, Class := ClassINET, Ttl := uint32 txt.ttl }
        [txt.value]
      let m := { m with Answer := m.Answer ++ [rr] }
      return [m]
    | none => return [m]
  else if rq0.Qtype = TypeMX then
    let mq0 ← m.Question[0]?
    match n.mx (ToLower L mq0.Name) with
    | some txt =>
      let mq0' ← m.Question[0]?
      let rr : RR := RR.MX
        { Name := mq0'.Name, Rrtype := TypeMX, Class := ClassINET, Ttl := uint32 txt.ttl }
        (uint16 txt.preference) txt.value
      let m := { m with Answer := m.Answer ++ [rr] }
      return [m]
    | none => return [m]
  else
    return [m]

/-- The fields of a literal between its dots. -/
def splitDots : List Char → List (List Char)
  | [] => [[]]
  | c :: cs =>
    if c = '.' then [] :: splitDots cs
    else
      match splitDots cs with
      | f :: fs => (c :: f) :: fs
      | [] => [[c]]

/-- One field of a dotted-quad literal: one to three decimal digits, no
leading zero, value below 256. -/
def parseByte (f : List Char) : Option Nat :=
  if f.length = 0 ∨ 3 < f.length ∨ ¬ f.all Char.isDigit ∨
      (1 < f.length ∧ f.head? = some '0') then none
  else
    let v := f.foldl (fun a c => 10 * a + (c.toNat - 48)) 0
    if v < 256 then some v else none

/-- An ASCII instance of the library tables, used to evaluate the handler on
concrete inputs: `unicode.ToLower` on the ASCII range, and a stand-in for
`net.ParseIP` that reads IPv4 dotted-quad literals only (the 16-byte form of
the address; `none` for every other string). -/
def asciiLib : Lib where
  unicodeToLower := Char.toLower
  ParseIP := fun s =>
    match (splitDots s.data).map parseByte with
    | [some a, some b, some c, some d] =>
      some [0, 0, 0, 0, 0, 0, 0, 0, 0, 0, 255, 255, a, b, c, d]
    | _ => none

/-! ## The process: administrative calls interleaved with queries -/

/-- One event on a running process: a call of one of the administrative
methods, or a query delivered to `handleRequest`. -/
inductive Op where
  | AddTXT (fqdn : String) (value : String) (ttl : Int)
  | AddMX (fqdn : String) (value : String) (preference : Int) (ttl : Int)
  | ClearTXT
  | Reset
  | Query (r : Msg)

/-- The nameserver instance, the handler registry, and the replies written so
far (oldest first). -/
structure Proc where
  n : Nameserver
  mux : ServeMux
  written : List Msg

/-- The process right after `NewNameserver(cfg)`. -/
def Proc.init (now : Int) (cfg : Config) (mux : ServeMux) : Proc :=
  { n := (NewNameserver now cfg mux).1, mux := (NewNameserver now cfg mux).2, written := [] }

/-- One event; `none` when the handler panics. -/
def step (L : Lib) (p : Proc) : Op → Option Proc
  | Op.AddTXT fqdn value ttl => some { p with n := AddTXT p.n fqdn value ttl }
  | Op.AddMX fqdn value preference ttl => some { p with n := AddMX p.n fqdn value preference ttl }
  | Op.ClearTXT => some { p with n := ClearTXT p.n }
  | Op.Reset => some { p with mux := Reset p.n p.mux }
  | Op.Query r =>
    match handleRequest L p.n r with
    | some ws => some { p with written := p.written ++ ws }
    | none => none

/-- A sequence of events; a panic ends the process, later events are not run. -/
def run (L : Lib) : Proc → List Op → Proc
  | p, [] => p
  | p, op :: ops =>
    match step L p op with
    | some p' => run L p' ops
    | none => p

/-- A key in the form the data model asks for: lower case, ending in a dot. -/
def LowerDotted (L : Lib) (k : String) : Prop :=
  ToLower L k = k ∧ k.data.getLast? = some '.'

instance (L : Lib) (k : String) : Decidable (LowerDotted L k) := by
  unfold LowerDotted
  infer_instance

/-- The name an event inserts a record under, if it inserts one, is lower case
and ends in a dot. -/
def Op.keyLowerDotted (L : Lib) : Op → Prop
  | Op.AddTXT fqdn _ _ => LowerDotted L fqdn
  | Op.AddMX fqdn _ _ _ => LowerDotted L fqdn
  | _ => True

instance (L : Lib) (op : Op) : Decidable (op.keyLowerDotted L) := by
  cases op <;> unfold Op.keyLowerDotted <;> infer_instance

/-- The event is a call of `ClearTXT`. -/
def Op.isClearTXT : Op → Bool
  | Op.ClearTXT => true
  | _ => false

/-- The `fqdn` argument of an `AddTXT` call. -/
def Op.txtKey : Op → Option String
  | Op.AddTXT fqdn _ _ => some fqdn
  | _ => none

/-- The `fqdn` argument of an `AddMX` call. -/
def Op.mxKey : Op → Option String
  | Op.AddMX fqdn _ _ _ => some fqdn
  | _ => none

/-- The `fqdn` arguments of the `AddTXT` calls made after the last `ClearTXT`
of a sequence of events (latest call first). -/
def txtInserted (ops : List Op) : List String :=
  (ops.reverse.takeWhile (fun op => !op.isClearTXT)).filterMap Op.txtKey

/-- The `fqdn` arguments of all `AddMX` calls of a sequence of events. -/
def mxInserted (ops : List Op) : List String :=
  ops.filterMap Op.mxKey

/-- A query event carries at least one question (the handler does not panic
on it). -/
def Op.hasQuestion : Op → Prop
  | Op.Query r => r.Question ≠ []
  | _ => True

instance (op : Op) : Decidable op.hasQuestion := by
  cases op <;> unfold Op.hasQuestion <;> infer_instance

/-- An instance whose stored ttl and preference values lie outside the ranges
of `uint32` and `uint16`. -/
def exampleWideNS : Nameserver :=
  AddMX (AddTXT
      (NewNameserver 1700000000 { baseDomain := "example.com", serverIP := "10.0.0.1" } []).1
      "example.com." "v" (-1))
    "example.com." "mx.example.com." 65546 4294967356

/-- A configured instance with empty stores, used to evaluate the handler on
concrete queries. -/
def exampleNS : Nameserver :=
  (NewNameserver 1700000000 { baseDomain := "example.com", serverIP := "10.0.0.1" } []).1

/-- A request with one question. -/
def exampleQuery (name : String) (qtype : Nat) : Msg :=
  { Id := 7, Question := [{ Name := name, Qtype := qtype, Qclass := ClassINET }] }

/-- The reply of `exampleNS` to a query that finds no record. -/
def exampleEmptyReply (name : String) (qtype : Nat) : Msg :=
  { Id := 7, Response := true,
    Question := [{ Name := name, Qtype := qtype, Qclass := ClassINET }],
    Ns := [RR.SOA ⟨"example.com.", TypeSOA, ClassINET, 300, 0⟩ "ns1.example.com."
      "hostmaster.example.com." 1700000000 900 900 1800 60] }

/-! ## Helper lemmas -/

theorem ToLower_length (L : Lib) (s : String) : (ToLower L s).length = s.length := by
  show (s.data.map L.unicodeToLower).length = s.data.length
  simp

theorem pdom_length (d : String) : (pdom d).length = d.length + 1 := by
  simp [pdom, String.length_append]
  rfl

theorem uint32_of_lt (x : Int) (h0 : 0 ≤ x) (h1 : x < 2 ^ 32) : uint32 x = x.toNat := by
  unfold uint32
  rw [Int.emod_eq_of_lt h0 h1]

theorem uint16_of_lt (x : Int) (h0 : 0 ≤ x) (h1 : x < 2 ^ 16) : uint16 x = x.toNat := by
  unfold uint16
  rw [Int.emod_eq_of_lt h0 h1]

/-- With an unset base domain or service address the handler returns before
`WriteMsg`. -/
theorem handleRequest_unset (L : Lib) (n : Nameserver) (r : Msg)
    (h : n.cfg.baseDomain = "" ∨ n.cfg.serverIP = "") :
    handleRequest L n r = some [] := by
  unfold handleRequest
  simp only [if_pos h]
  rfl

theorem SetReply_Question_cons (m r : Msg) (q : Question) (qs : List Question)
    (hq : r.Question = q :: qs) : (SetReply m r).Question = [q] := by
  simp [SetReply, hq]

theorem SetReply_Answer (m r : Msg) : (SetReply m r).Answer = m.Answer := by
  unfold SetReply
  cases r.Question <;> simp <;> split <;> rfl

/-- The reply to a TXT query, configuration set: the stored record under the
lower-cased question name decides the answer section. -/
theorem handleRequest_TXT (L : Lib) (n : Nameserver) (r : Msg) (q : Question)
    (qs : List Question) (hb : n.cfg.baseDomain ≠ "") (hs : n.cfg.serverIP ≠ "")
    (hq : r.Question = q :: qs) (ht : q.Qtype = TypeTXT) :
    ∃ m, handleRequest L n r = some [m] ∧
      m.Answer = match n.txt (ToLower L q.Name) with
        | some txt => [RR.TXT ⟨q.Name, TypeTXT, ClassINET, uint32 txt.ttl, 0⟩ [txt.value]]
        | none => [] := by
  have hm : (SetReply {} r).Question = [q] := SetReply_Question_cons _ _ _ _ hq
  have ha : (SetReply {} r).Answer = [] := SetReply_Answer _ _
  unfold handleRequest
  generalize SetReply {} r = m0 at hm ha ⊢
  cases hl : n.txt (ToLower L q.Name) <;>
    simp [hb, hs, hq, hm, ha, ht, TypeTXT, TypeA, TypeNS, ClassINET, hl]

/-- The reply to an MX query, configuration set. -/
theorem handleRequest_MX (L : Lib) (n : Nameserver) (r : Msg) (q : Question)
    (qs : List Question) (hb : n.cfg.baseDomain ≠ "") (hs : n.cfg.serverIP ≠ "")
    (hq : r.Question = q :: qs) (ht : q.Qtype = TypeMX) :
    ∃ m, handleRequest L n r = some [m] ∧
      m.Answer = match n.mx (ToLower L q.Name) with
        | some mx => [RR.MX ⟨q.Name, TypeMX, ClassINET, uint32 mx.ttl, 0⟩
            (uint16 mx.preference) mx.value]
        | none => [] := by
  have hm : (SetReply {} r).Question = [q] := SetReply_Question_cons _ _ _ _ hq
  have ha : (SetReply {} r).Answer = [] := SetReply_Answer _ _
  unfold handleRequest
  generalize SetReply {} r = m0 at hm ha ⊢
  cases hl : n.mx (ToLower L q.Name) <;>
    simp [hb, hs, hq, hm, ha, ht, TypeMX, TypeTXT, TypeA, TypeNS, ClassINET, hl]

theorem Itoa_one : Itoa 1 = "1" := by decide

theorem Itoa_two : Itoa 2 = "2" := by decide

/-- The reply to an NS query, configuration set. -/
theorem handleRequest_NS (L : Lib) (n : Nameserver) (r : Msg) (q : Question)
    (qs : List Question) (hb : n.cfg.baseDomain ≠ "") (hs : n.cfg.serverIP ≠ "")
    (hq : r.Question = q :: qs) (ht : q.Qtype = TypeNS) :
    ∃ m, handleRequest L n r = some [m] ∧
      m.Answer = if ToLower L q.Name = pdom n.cfg.baseDomain then
          [RR.NS ⟨pdom n.cfg.baseDomain, TypeNS, ClassINET, 300, 0⟩
             ("ns1." ++ pdom n.cfg.baseDomain),
           RR.NS ⟨pdom n.cfg.baseDomain, TypeNS, ClassINET, 300, 0⟩
             ("ns2." ++ pdom n.cfg.baseDomain)]
        else [] := by
  have ha : (SetReply {} r).Answer = [] := SetReply_Answer _ _
  have h1 : "ns" ++ Itoa 1 ++ "." ++ pdom n.cfg.baseDomain = "ns1." ++ pdom n.cfg.baseDomain := by
    rw [Itoa_one]; rfl
  have h2 : "ns" ++ Itoa 2 ++ "." ++ pdom n.cfg.baseDomain = "ns2." ++ pdom n.cfg.baseDomain := by
    rw [Itoa_two]; rfl
  unfold handleRequest
  generalize SetReply {} r = m0 at ha ⊢
  by_cases hl : ToLower L q.Name = pdom n.cfg.baseDomain <;>
    simp [hb, hs, hq, ha, ht, TypeA, TypeNS, ClassINET, hl, h1, h2]

/-- With the configuration set, a request without a question stops the handler
at `r.Question[0]`. -/
theorem handleRequest_no_question (L : Lib) (n : Nameserver) (r : Msg)
    (hb : n.cfg.baseDomain ≠ "") (hs : n.cfg.serverIP ≠ "") (hq : r.Question = []) :
    handleRequest L n r = none := by
  unfold handleRequest
  simp [hb, hs, hq]

/-- With the configuration set, a request with a question gets exactly one
reply, and its authority section is the SOA record of the instance. -/
theorem handleRequest_set (L : Lib) (n : Nameserver) (r : Msg) (q : Question)
    (qs : List Question) (hb : n.cfg.baseDomain ≠ "") (hs : n.cfg.serverIP ≠ "")
    (hq : r.Question = q :: qs) :
    ∃ m, handleRequest L n r = some [m] ∧
      m.Ns = [RR.SOA ⟨pdom n.cfg.baseDomain, TypeSOA, ClassINET, 300, 0⟩
        ("ns1." ++ pdom n.cfg.baseDomain) ("hostmaster." ++ pdom n.cfg.baseDomain)
        n.serial 900 900 1800 60] := by
  have hm : (SetReply {} r).Question = [q] := SetReply_Question_cons _ _ _ _ hq
  unfold handleRequest
  generalize SetReply {} r = m0 at hm ⊢
  have hNA : TypeNS ≠ TypeA := by decide
  have hTA : TypeTXT ≠ TypeA := by decide
  have hTN : TypeTXT ≠ TypeNS := by decide
  have hMA : TypeMX ≠ TypeA := by decide
  have hMN : TypeMX ≠ TypeNS := by decide
  have hMT : TypeMX ≠ TypeTXT := by decide
  by_cases hA : q.Qtype = TypeA
  · simp [hb, hs, hq, hm, hA]
  by_cases hN : q.Qtype = TypeNS
  · by_cases hl : ToLower L q.Name = pdom n.cfg.baseDomain <;>
      simp [hb, hs, hq, hm, hN, hl, hNA]
  by_cases hT : q.Qtype = TypeTXT
  · cases hl : n.txt (ToLower L q.Name) <;> simp [hb, hs, hq, hm, hT, hl, hTA, hTN]
  by_cases hM : q.Qtype = TypeMX
  · cases hl : n.mx (ToLower L q.Name) <;> simp [hb, hs, hq, hm, hM, hl, hMA, hMN, hMT]
  simp [hb, hs, hq, hm, hA, hN, hT, hM]

/-- Every reply the handler writes carries the SOA record of the instance as
its whole authority section. -/
theorem handleRequest_Ns (L : Lib) (n : Nameserver) (r : Msg) (ws : List Msg) (m : Msg)
    (h : handleRequest L n r = some ws) (hm : m ∈ ws) :
    m.Ns = [RR.SOA ⟨pdom n.cfg.baseDomain, TypeSOA, ClassINET, 300, 0⟩
      ("ns1." ++ pdom n.cfg.baseDomain) ("hostmaster." ++ pdom n.cfg.baseDomain)
      n.serial 900 900 1800 60] := by
  by_cases hc : n.cfg.baseDomain = "" ∨ n.cfg.serverIP = ""
  · rw [handleRequest_unset L n r hc] at h
    cases h
    simp at hm
  · have hb : n.cfg.baseDomain ≠ "" := fun e => hc (Or.inl e)
    have hs : n.cfg.serverIP ≠ "" := fun e => hc (Or.inr e)
    cases hq : r.Question with
    | nil =>
      rw [handleRequest_no_question L n r hb hs hq] at h
      cases h
    | cons q qs =>
      obtain ⟨m1, h1, hns⟩ := handleRequest_set L n r q qs hb hs hq
      rw [h1] at h
      cases h
      simp at hm
      rw [hm]
      exact hns

/-- No event changes the serial or the configuration of the instance. -/
theorem step_serial_cfg (L : Lib) (p p' : Proc) (op : Op) (h : step L p op = some p') :
    p'.n.serial = p.n.serial ∧ p'.n.cfg = p.n.cfg := by
  cases op with
  | AddTXT f v t => simp [step] at h; subst h; simp [AddTXT]
  | AddMX f v pr t => simp [step] at h; subst h; simp [AddMX]
  | ClearTXT => simp [step] at h; subst h; simp [ClearTXT]
  | Reset => simp [step] at h; subst h; simp
  | Query r =>
    unfold step at h
    cases hr : handleRequest L p.n r with
    | none => simp [hr] at h
    | some ws => simp [hr] at h; subst h; simp

/-- An event adds to the written replies only what the handler wrote for it. -/
theorem step_written (L : Lib) (p p' : Proc) (op : Op) (m : Msg)
    (h : step L p op = some p') (hm : m ∈ p'.written) :
    m ∈ p.written ∨ ∃ r ws, handleRequest L p.n r = some ws ∧ m ∈ ws := by
  cases op with
  | AddTXT f v t => simp [step] at h; subst h; exact Or.inl hm
  | AddMX f v pr t => simp [step] at h; subst h; exact Or.inl hm
  | ClearTXT => simp [step] at h; subst h; exact Or.inl hm
  | Reset => simp [step] at h; subst h; exact Or.inl hm
  | Query r =>
    unfold step at h
    cases hr : handleRequest L p.n r with
    | none => simp [hr] at h
    | some ws =>
      simp [hr] at h
      subst h
      simp at hm
      rcases hm with hm | hm
      · exact Or.inl hm
      · exact Or.inr ⟨r, ws, hr, hm⟩

/-- Along a run the serial and the configuration stay what they were, and
every reply carries the one SOA record built from them. -/
theorem run_soa (L : Lib) (ops : List Op) (p : Proc)
    (hp : ∀ m ∈ p.written, m.Ns = [RR.SOA ⟨pdom p.n.cfg.baseDomain, TypeSOA, ClassINET, 300, 0⟩
      ("ns1." ++ pdom p.n.cfg.baseDomain) ("hostmaster." ++ pdom p.n.cfg.baseDomain)
      p.n.serial 900 900 1800 60]) :
    (run L p ops).n.serial = p.n.serial ∧ (run L p ops).n.cfg = p.n.cfg ∧
    ∀ m ∈ (run L p ops).written,
      m.Ns = [RR.SOA ⟨pdom p.n.cfg.baseDomain, TypeSOA, ClassINET, 300, 0⟩
        ("ns1." ++ pdom p.n.cfg.baseDomain) ("hostmaster." ++ pdom p.n.cfg.baseDomain)
        p.n.serial 900 900 1800 60] := by
  induction ops generalizing p with
  | nil => exact ⟨rfl, rfl, hp⟩
  | cons op ops ih =>
    unfold run
    cases hs : step L p op with
    | none => exact ⟨rfl, rfl, hp⟩
    | some p' =>
      obtain ⟨hser, hcfg⟩ := step_serial_cfg L p p' op hs
      have hp' : ∀ m ∈ p'.written,
          m.Ns = [RR.SOA ⟨pdom p'.n.cfg.baseDomain, TypeSOA, ClassINET, 300, 0⟩
            ("ns1." ++ pdom p'.n.cfg.baseDomain) ("hostmaster." ++ pdom p'.n.cfg.baseDomain)
            p'.n.serial 900 900 1800 60] := by
        intro m hm
        rw [hser, hcfg]
        rcases step_written L p p' op m hs hm with h | ⟨r, ws, hr, hw⟩
        · exact hp m h
        · exact handleRequest_Ns L p.n r ws m hr hw
      have := ih p' hp'
      simp only [hser, hcfg] at this
      exact this

/-- The keys of both stores stay lower case and dot-terminated along a run
whose inserting events all use such names. -/
theorem run_keys (L : Lib) (ops : List Op) (p : Proc)
    (hops : ∀ op ∈ ops, op.keyLowerDotted L)
    (hp : ∀ k, ((p.n.txt k).isSome → LowerDotted L k) ∧ ((p.n.mx k).isSome → LowerDotted L k)) :
    ∀ k, (((run L p ops).n.txt k).isSome → LowerDotted L k) ∧
      (((run L p ops).n.mx k).isSome → LowerDotted L k) := by
  induction ops generalizing p with
  | nil => exact hp
  | cons op ops ih =>
    have hop : op.keyLowerDotted L := hops op (List.mem_cons_self _ _)
    have hrest : ∀ o ∈ ops, o.keyLowerDotted L := fun o ho => hops o (List.mem_cons_of_mem _ ho)
    unfold run
    cases hs : step L p op with
    | none => exact hp
    | some p' =>
      apply ih p' hrest
      intro k
      cases op with
      | AddTXT f v t =>
        simp [step] at hs; subst hs
        refine ⟨?_, (hp k).2⟩
        simp only [AddTXT, GoMap.set]
        by_cases hk : k = f
        · intro _; rw [hk]; exact hop
        · rw [if_neg hk]; exact (hp k).1
      | AddMX f v pr t =>
        simp [step] at hs; subst hs
        refine ⟨(hp k).1, ?_⟩
        simp only [AddMX, GoMap.set]
        by_cases hk : k = f
        · intro _; rw [hk]; exact hop
        · rw [if_neg hk]; exact (hp k).2
      | ClearTXT =>
        simp [step] at hs; subst hs
        refine ⟨?_, (hp k).2⟩
        simp [ClearTXT, GoMap.make]
      | Reset => simp [step] at hs; subst hs; exact hp k
      | Query r =>
        unfold step at hs
        cases hr : handleRequest L p.n r with
        | none => simp [hr] at hs
        | some ws => simp [hr] at hs; subst hs; exact hp k

/-- The reply to an A query, configuration set. -/
theorem handleRequest_A (L : Lib) (n : Nameserver) (r : Msg) (q : Question)
    (qs : List Question) (hb : n.cfg.baseDomain ≠ "") (hs : n.cfg.serverIP ≠ "")
    (hq : r.Question = q :: qs) (ht : q.Qtype = TypeA) :
    ∃ m, handleRequest L n r = some [m] ∧
      m.Answer = [RR.A ⟨q.Name, TypeA, ClassINET, 300, 0⟩ (L.ParseIP n.cfg.serverIP)] := by
  have hm : (SetReply {} r).Question = [q] := SetReply_Question_cons _ _ _ _ hq
  have ha : (SetReply {} r).Answer = [] := SetReply_Answer _ _
  unfold handleRequest
  generalize SetReply {} r = m0 at hm ha ⊢
  simp [hb, hs, hq, hm, ha, ht, TypeA, ClassINET]

/-- The reply to a query of a type the switch has no case for, configuration
set. -/
theorem handleRequest_other (L : Lib) (n : Nameserver) (r : Msg) (q : Question)
    (qs : List Question) (hb : n.cfg.baseDomain ≠ "") (hs : n.cfg.serverIP ≠ "")
    (hq : r.Question = q :: qs) (hA : q.Qtype ≠ TypeA) (hN : q.Qtype ≠ TypeNS)
    (hT : q.Qtype ≠ TypeTXT) (hM : q.Qtype ≠ TypeMX) :
    ∃ m, handleRequest L n r = some [m] ∧ m.Answer = [] := by
  have ha : (SetReply {} r).Answer = [] := SetReply_Answer _ _
  unfold handleRequest
  generalize SetReply {} r = m0 at ha ⊢
  simp [hb, hs, hq, ha, hA, hN, hT, hM]

/-- Assigning twice under one key keeps the second value only. -/
theorem GoMap.set_set {α : Type} (m : GoMap α) (k : String) (a b : α) :
    (m.set k a).set k b = m.set k b := by
  funext k'
  unfold GoMap.set
  by_cases h : k' = k <;> simp [h]

theorem GoMap.set_self {α : Type} (m : GoMap α) (k : String) (a : α) :
    (m.set k a) k = some a := by
  simp [GoMap.set]

theorem GoMap.set_other {α : Type} (m : GoMap α) (k k' : String) (a : α) (h : k' ≠ k) :
    (m.set k a) k' = m k' := by
  simp [GoMap.set, h]

/-- A request with a question never stops the handler. -/
theorem handleRequest_some (L : Lib) (n : Nameserver) (r : Msg) (hq : r.Question ≠ []) :
    ∃ ws, handleRequest L n r = some ws := by
  by_cases hc : n.cfg.baseDomain = "" ∨ n.cfg.serverIP = ""
  · exact ⟨[], handleRequest_unset L n r hc⟩
  · have hb : n.cfg.baseDomain ≠ "" := fun e => hc (Or.inl e)
    have hs : n.cfg.serverIP ≠ "" := fun e => hc (Or.inr e)
    cases hr : r.Question with
    | nil => exact absurd hr hq
    | cons q qs =>
      obtain ⟨m, hm, _⟩ := handleRequest_set L n r q qs hb hs hr
      exact ⟨[m], hm⟩

/-- The effect of one event on the instance; a query has none. -/
theorem step_n (L : Lib) (p p' : Proc) (op : Op) (h : step L p op = some p') :
    p'.n = match op with
      | Op.AddTXT f v t => AddTXT p.n f v t
      | Op.AddMX f v pr t => AddMX p.n f v pr t
      | Op.ClearTXT => ClearTXT p.n
      | Op.Reset => p.n
      | Op.Query _ => p.n := by
  cases op with
  | AddTXT f v t => simp [step] at h; subst h; rfl
  | AddMX f v pr t => simp [step] at h; subst h; rfl
  | ClearTXT => simp [step] at h; subst h; rfl
  | Reset => simp [step] at h; subst h; rfl
  | Query r =>
    unfold step at h
    cases hr : handleRequest L p.n r with
    | none => simp [hr] at h
    | some ws => simp [hr] at h; subst h; rfl

theorem step_some (L : Lib) (p : Proc) (op : Op) (h : op.hasQuestion) :
    ∃ p', step L p op = some p' := by
  cases op with
  | AddTXT f v t => exact ⟨_, rfl⟩
  | AddMX f v pr t => exact ⟨_, rfl⟩
  | ClearTXT => exact ⟨_, rfl⟩
  | Reset => exact ⟨_, rfl⟩
  | Query r =>
    obtain ⟨ws, hws⟩ := handleRequest_some L p.n r h
    exact ⟨{ p with written := p.written ++ ws }, by simp [step, hws]⟩

/-- A run without a panic, extended by one event. -/
theorem run_snoc (L : Lib) (ops : List Op) (op : Op) (p : Proc)
    (hops : ∀ o ∈ ops, o.hasQuestion) :
    run L p (ops ++ [op]) = run L (run L p ops) [op] := by
  induction ops generalizing p with
  | nil => rfl
  | cons o ops ih =>
    obtain ⟨p', hp'⟩ := step_some L p o (hops o (List.mem_cons_self _ _))
    have hrest : ∀ x ∈ ops, x.hasQuestion := fun x hx => hops x (List.mem_cons_of_mem _ hx)
    simp only [List.cons_append, run, hp']
    exact ih p' hrest

theorem txtInserted_snoc (ops : List Op) (op : Op) :
    txtInserted (ops ++ [op]) =
      if op.isClearTXT then []
      else match op.txtKey with
        | some f => f :: txtInserted ops
        | none => txtInserted ops := by
  unfold txtInserted
  rw [List.reverse_append]
  cases op <;> simp [Op.isClearTXT, Op.txtKey, List.takeWhile_cons]

theorem mxInserted_snoc (ops : List Op) (op : Op) :
    mxInserted (ops ++ [op]) =
      match op.mxKey with
      | some f => mxInserted ops ++ [f]
      | none => mxInserted ops := by
  unfold mxInserted
  rw [List.filterMap_append]
  cases op <;> simp [Op.mxKey]

/-- From empty stores, the keys of the stores after a run without a panic are
the inserted names. -/
theorem run_inserted (L : Lib) (ops : List Op) (p : Proc)
    (hops : ∀ o ∈ ops, o.hasQuestion)
    (htxt : ∀ k, p.n.txt k = none) (hmx : ∀ k, p.n.mx k = none) (k : String) :
    (((run L p ops).n.txt k).isSome ↔ k ∈ txtInserted ops) ∧
      (((run L p ops).n.mx k).isSome ↔ k ∈ mxInserted ops) := by
  induction ops using List.reverseRecOn with
  | nil => simp [run, txtInserted, mxInserted, htxt, hmx]
  | append_singleton ops op ih =>
    have hprev : ∀ o ∈ ops, o.hasQuestion := fun o ho =>
      hops o (List.mem_append_left _ ho)
    have hop : op.hasQuestion := hops op (by simp)
    obtain ⟨ih1, ih2⟩ := ih hprev
    obtain ⟨p', hp'⟩ := step_some L (run L p ops) op hop
    have hn := step_n L (run L p ops) p' op hp'
    rw [run_snoc L ops op p hprev, txtInserted_snoc, mxInserted_snoc]
    simp only [run, hp']
    rw [hn]
    cases op with
    | AddTXT f v t =>
      simp only [Op.isClearTXT, Op.txtKey, Op.mxKey, AddTXT, GoMap.set]
      refine ⟨?_, ih2⟩
      by_cases hk : k = f
      · simp [hk]
      · simp [hk, ih1]
    | AddMX f v pr t =>
      simp only [Op.isClearTXT, Op.txtKey, Op.mxKey, AddMX, GoMap.set]
      refine ⟨by simpa using ih1, ?_⟩
      by_cases hk : k = f
      · simp [hk]
      · simp [hk, ih2]
    | ClearTXT =>
      simp only [Op.isClearTXT, Op.mxKey, ClearTXT, GoMap.make]
      exact ⟨by simp, ih2⟩
    | Reset =>
      simp only [Op.isClearTXT, Op.txtKey, Op.mxKey]
      exact ⟨by simpa using ih1, ih2⟩
    | Query r =>
      simp only [Op.isClearTXT, Op.txtKey, Op.mxKey]
      exact ⟨by simpa using ih1, ih2⟩

/-- With the configuration set, the answer and authority sections of the
reply are determined by the first question of the request. -/
theorem handleRequest_first_question (L : Lib) (n : Nameserver) (q : Question)
    (hb : n.cfg.baseDomain ≠ "") (hs : n.cfg.serverIP ≠ "") :
    ∃ ans : List RR, ∀ (r : Msg) (qs : List Question), r.Question = q :: qs →
      ∃ m, handleRequest L n r = some [m] ∧ m.Answer = ans ∧
        m.Ns = [RR.SOA ⟨pdom n.cfg.baseDomain, TypeSOA, ClassINET, 300, 0⟩
          ("ns1." ++ pdom n.cfg.baseDomain) ("hostmaster." ++ pdom n.cfg.baseDomain)
          n.serial 900 900 1800 60] := by
  have key : ∀ (ans : List RR),
      (∀ (r : Msg) (qs : List Question), r.Question = q :: qs →
        ∃ m, handleRequest L n r = some [m] ∧ m.Answer = ans) →
      ∀ (r : Msg) (qs : List Question), r.Question = q :: qs →
        ∃ m, handleRequest L n r = some [m] ∧ m.Answer = ans ∧
          m.Ns = [RR.SOA ⟨pdom n.cfg.baseDomain, TypeSOA, ClassINET, 300, 0⟩
            ("ns1." ++ pdom n.cfg.baseDomain) ("hostmaster." ++ pdom n.cfg.baseDomain)
            n.serial 900 900 1800 60] := by
    intro ans h r qs hq
    obtain ⟨m, hm, ha⟩ := h r qs hq
    obtain ⟨m', hm', hns⟩ := handleRequest_set L n r q qs hb hs hq
    rw [hm] at hm'
    cases hm'
    exact ⟨m, hm, ha, hns⟩
  by_cases hA : q.Qtype = TypeA
  · exact ⟨_, key _ (fun r qs hq => handleRequest_A L n r q qs hb hs hq hA)⟩
  by_cases hN : q.Qtype = TypeNS
  · exact ⟨_, key _ (fun r qs hq => handleRequest_NS L n r q qs hb hs hq hN)⟩
  by_cases hT : q.Qtype = TypeTXT
  · exact ⟨_, key _ (fun r qs hq => handleRequest_TXT L n r q qs hb hs hq hT)⟩
  by_cases hM : q.Qtype = TypeMX
  · exact ⟨_, key _ (fun r qs hq => handleRequest_MX L n r q qs hb hs hq hM)⟩
  exact ⟨_, key _ (fun r qs hq => handleRequest_other L n r q qs hb hs hq hA hN hT hM)⟩

theorem uint32_cast (x : Int) : (uint32 x : Int) = x % 2 ^ 32 := by
  unfold uint32
  exact Int.toNat_of_nonneg (Int.emod_nonneg _ (by norm_num))

theorem uint16_cast (x : Int) : (uint16 x : Int) = x % 2 ^ 16 := by
  unfold uint16
  exact Int.toNat_of_nonneg (Int.emod_nonneg _ (by norm_num))

theorem uint32_unchanged_iff (x : Int) : (uint32 x : Int) = x ↔ 0 ≤ x ∧ x < 2 ^ 32 := by
  rw [uint32_cast]
  norm_num
  omega

theorem uint16_unchanged_iff (x : Int) : (uint16 x : Int) = x ↔ 0 ≤ x ∧ x < 2 ^ 16 := by
  rw [uint16_cast]
  norm_num
  omega

/-! ## Claims -/

/-- C1, as stated, fails twice. `AddTXT` stores the record under the name as
given while the lookup lower-cases the question name: after
`AddTXT("Example.com.", "v", 60)` the TXT query for `Example.com.` gets an
empty answer section. And the stored ttl is narrowed by `uint32`: after
`AddTXT("example.com.", "v", -1)` the TXT answer has TTL 4294967295. -/
theorem addTXT_query_counterexample :
    (∃ m, handleRequest asciiLib (AddTXT exampleNS "Example.com." "v" 60)
        { Question := [⟨"Example.com.", TypeTXT, 1⟩] } = some [m] ∧ m.Answer = []) ∧
    (∃ m, handleRequest asciiLib (AddTXT exampleNS "example.com." "v" (-1))
        { Question := [⟨"example.com.", TypeTXT, 1⟩] } = some [m] ∧
      m.Answer = [RR.TXT ⟨"example.com.", TypeTXT, ClassINET, 4294967295, 0⟩ ["v"]]) :=
  ⟨⟨_, rfl, by decide⟩, ⟨_, rfl, by decide⟩⟩

/-- C1 (amended): with base domain and service address both set, for every
lower-case `fqdn`, every value `v` and every `ttl` with `0 ≤ ttl < 2^32`, after
`AddTXT(fqdn, v, ttl)` a TXT query whose question name is `fqdn` in any letter
case is answered by one reply whose answer section is exactly one TXT record,
owned by the question name, with text `[v]` and TTL `ttl`. -/
theorem addTXT_query_lowercase (L : Lib) (n : Nameserver) (fqdn v : String) (ttl : Int)
    (r : Msg) (q : Question) (qs : List Question)
    (hb : n.cfg.baseDomain ≠ "") (hs : n.cfg.serverIP ≠ "")
    (hq : r.Question = q :: qs) (ht : q.Qtype = TypeTXT)
    (hlow : ToLower L fqdn = fqdn) (hname : ToLower L q.Name = ToLower L fqdn)
    (h0 : 0 ≤ ttl) (h1 : ttl < 2 ^ 32) :
    ∃ m, handleRequest L (AddTXT n fqdn v ttl) r = some [m] ∧
      m.Answer = [RR.TXT ⟨q.Name, TypeTXT, ClassINET, ttl.toNat, 0⟩ [v]] := by
  obtain ⟨m, hm, ha⟩ := handleRequest_TXT L (AddTXT n fqdn v ttl) r q qs hb hs hq ht
  refine ⟨m, hm, ?_⟩
  rw [ha, hname, hlow]
  simp [AddTXT, GoMap.set, uint32_of_lt ttl h0 h1]

/-- The amended C1 at `AddTXT("_dmarc.example.com.", "v=DMARC1; p=none", 60)` and
the TXT query for `_DMARC.Example.COM.`. -/
theorem addTXT_query_lowercase_witness :
    ∃ m, handleRequest asciiLib (AddTXT exampleNS "_dmarc.example.com." "v=DMARC1; p=none" 60)
        { Id := 7, Question := [⟨"_DMARC.Example.COM.", TypeTXT, 1⟩] } = some [m] ∧
      m.Answer = [RR.TXT ⟨"_DMARC.Example.COM.", TypeTXT, ClassINET, (60 : Int).toNat, 0⟩
        ["v=DMARC1; p=none"]] :=
  addTXT_query_lowercase asciiLib exampleNS "_dmarc.example.com." "v=DMARC1; p=none" 60
    { Id := 7, Question := [⟨"_DMARC.Example.COM.", TypeTXT, 1⟩] }
    ⟨"_DMARC.Example.COM.", TypeTXT, 1⟩ [] (by decide) (by decide) rfl rfl (by decide)
    (by decide) (by decide) (by decide)

/-- C2, as stated, fails twice. `AddMX` stores the record under the name as
given while the lookup lower-cases the question name: after
`AddMX("Example.com.", "mx.example.com.", 10, 60)` the MX query for
`Example.com.` gets an empty answer section. And the stored preference is
narrowed by `uint16`: after `AddMX("example.com.", "mx.example.com.", 65546, 60)`
the MX answer has preference 10. -/
theorem addMX_query_counterexample :
    (∃ m, handleRequest asciiLib (AddMX exampleNS "Example.com." "mx.example.com." 10 60)
        { Question := [⟨"Example.com.", TypeMX, 1⟩] } = some [m] ∧ m.Answer = []) ∧
    (∃ m, handleRequest asciiLib (AddMX exampleNS "example.com." "mx.example.com." 65546 60)
        { Question := [⟨"example.com.", TypeMX, 1⟩] } = some [m] ∧
      m.Answer = [RR.MX ⟨"example.com.", TypeMX, ClassINET, 60, 0⟩ 10 "mx.example.com."]) :=
  ⟨⟨_, rfl, by decide⟩, ⟨_, rfl, by decide⟩⟩

/-- C2 (amended): with base domain and service address both set, for every
lower-case `fqdn`, every `host`, every `pref` with `0 ≤ pref < 2^16` and every
`ttl`, after `AddMX(fqdn, host, pref, ttl)` an MX query whose question name is
`fqdn` is answered by one reply whose answer section is exactly one MX record
with exchange `host` and preference `pref` (and TTL `uint32(ttl)`). -/
theorem addMX_query_lowercase (L : Lib) (n : Nameserver) (fqdn host : String)
    (pref ttl : Int) (r : Msg) (q : Question) (qs : List Question)
    (hb : n.cfg.baseDomain ≠ "") (hs : n.cfg.serverIP ≠ "")
    (hq : r.Question = q :: qs) (ht : q.Qtype = TypeMX)
    (hlow : ToLower L fqdn = fqdn) (hname : q.Name = fqdn)
    (h0 : 0 ≤ pref) (h1 : pref < 2 ^ 16) :
    ∃ m, handleRequest L (AddMX n fqdn host pref ttl) r = some [m] ∧
      m.Answer = [RR.MX ⟨fqdn, TypeMX, ClassINET, uint32 ttl, 0⟩ pref.toNat host] := by
  obtain ⟨m, hm, ha⟩ := handleRequest_MX L (AddMX n fqdn host pref ttl) r q qs hb hs hq ht
  refine ⟨m, hm, ?_⟩
  rw [ha, hname, hlow]
  simp [AddMX, GoMap.set, uint16_of_lt pref h0 h1]

/-- The amended C2 at `AddMX("example.com.", "mxa.mailgun.org.", 10, 60)` and the
MX query for `example.com.`. -/
theorem addMX_query_lowercase_witness :
    ∃ m, handleRequest asciiLib (AddMX exampleNS "example.com." "mxa.mailgun.org." 10 60)
        { Id := 7, Question := [⟨"example.com.", TypeMX, 1⟩] } = some [m] ∧
      m.Answer = [RR.MX ⟨"example.com.", TypeMX, ClassINET, uint32 60, 0⟩ (10 : Int).toNat
        "mxa.mailgun.org."] :=
  addMX_query_lowercase asciiLib exampleNS "example.com." "mxa.mailgun.org." 10 60
    { Id := 7, Question := [⟨"example.com.", TypeMX, 1⟩] }
    ⟨"example.com.", TypeMX, 1⟩ [] (by decide) (by decide) rfl rfl (by decide)
    rfl (by decide) (by decide)

/-- C3: with base domain and service address both set, for every question name
and every content of the TXT and MX stores, an A query is answered by one reply
whose answer section is exactly one A record: owner the queried name, TTL 300,
address `net.ParseIP(cfg.serverIP)`. No store is consulted. -/
theorem A_query_catch_all (L : Lib) (n : Nameserver) (r : Msg) (q : Question)
    (qs : List Question) (hb : n.cfg.baseDomain ≠ "") (hs : n.cfg.serverIP ≠ "")
    (hq : r.Question = q :: qs) (ht : q.Qtype = TypeA) :
    ∃ m, handleRequest L n r = some [m] ∧
      m.Answer = [RR.A ⟨q.Name, TypeA, ClassINET, 300, 0⟩ (L.ParseIP n.cfg.serverIP)] := by
  have hm : (SetReply {} r).Question = [q] := SetReply_Question_cons _ _ _ _ hq
  have ha : (SetReply {} r).Answer = [] := SetReply_Answer _ _
  unfold handleRequest
  generalize SetReply {} r = m0 at hm ha ⊢
  simp [hb, hs, hq, hm, ha, ht, TypeA, ClassINET]

/-- C3 at the A query for `foo.bar.example.com.`, base domain `example.com`. -/
theorem A_query_catch_all_witness :
    ∃ m, handleRequest asciiLib exampleNS
        { Id := 7, Question := [⟨"foo.bar.example.com.", TypeA, 1⟩] } = some [m] ∧
      m.Answer = [RR.A ⟨"foo.bar.example.com.", TypeA, ClassINET, 300, 0⟩
        (some [0, 0, 0, 0, 0, 0, 0, 0, 0, 0, 255, 255, 10, 0, 0, 1])] :=
  A_query_catch_all asciiLib exampleNS
    { Id := 7, Question := [⟨"foo.bar.example.com.", TypeA, 1⟩] }
    ⟨"foo.bar.example.com.", TypeA, 1⟩ [] (by decide) (by decide) rfl rfl

/-- C4, as stated, fails: the handler lower-cases the question name only and
compares it with `pdom(baseDomain)` as configured. With base domain
`Example.com` the NS query for `Example.com.` (equal to the base domain plus
dot, so equal case-insensitively) gets an empty answer section. -/
theorem NS_query_apex_counterexample :
    ∃ m, handleRequest asciiLib
        { cfg := { baseDomain := "Example.com", serverIP := "10.0.0.1" }, serial := 1,
          txt := GoMap.make, mx := GoMap.make }
        { Question := [⟨"Example.com.", TypeNS, 1⟩] } = some [m] ∧ m.Answer = [] :=
  ⟨_, rfl, by decide⟩

/-- C4 (amended): with base domain and service address both set, for every
question name whose lower-case form equals `pdom(baseDomain)` exactly as
configured, an NS query is answered by one reply whose answer section is
exactly two NS records, in order `ns1.<base>.` and `ns2.<base>.`, each with
owner `<base>.` and TTL 300. -/
theorem NS_query_apex (L : Lib) (n : Nameserver) (r : Msg) (q : Question)
    (qs : List Question) (hb : n.cfg.baseDomain ≠ "") (hs : n.cfg.serverIP ≠ "")
    (hq : r.Question = q :: qs) (ht : q.Qtype = TypeNS)
    (hname : ToLower L q.Name = pdom n.cfg.baseDomain) :
    ∃ m, handleRequest L n r = some [m] ∧
      m.Answer =
        [RR.NS ⟨pdom n.cfg.baseDomain, TypeNS, ClassINET, 300, 0⟩
           ("ns1." ++ pdom n.cfg.baseDomain),
         RR.NS ⟨pdom n.cfg.baseDomain, TypeNS, ClassINET, 300, 0⟩
           ("ns2." ++ pdom n.cfg.baseDomain)] := by
  obtain ⟨m, hm, ha⟩ := handleRequest_NS L n r q qs hb hs hq ht
  refine ⟨m, hm, ?_⟩
  rw [ha, if_pos hname]

/-- The amended C4 at the NS query for `EXAMPLE.com.`, base domain
`example.com`. -/
theorem NS_query_apex_witness :
    ∃ m, handleRequest asciiLib exampleNS
        { Id := 7, Question := [⟨"EXAMPLE.com.", TypeNS, 1⟩] } = some [m] ∧
      m.Answer =
        [RR.NS ⟨pdom exampleNS.cfg.baseDomain, TypeNS, ClassINET, 300, 0⟩
           ("ns1." ++ pdom exampleNS.cfg.baseDomain),
         RR.NS ⟨pdom exampleNS.cfg.baseDomain, TypeNS, ClassINET, 300, 0⟩
           ("ns2." ++ pdom exampleNS.cfg.baseDomain)] :=
  NS_query_apex asciiLib exampleNS { Id := 7, Question := [⟨"EXAMPLE.com.", TypeNS, 1⟩] }
    ⟨"EXAMPLE.com.", TypeNS, 1⟩ [] (by decide) (by decide) rfl rfl (by decide)

/-- C5: with base domain and service address both set, for every non-empty `p`
an NS query for `p.<base>.` is answered by one reply with an empty answer
section, whatever the TXT and MX stores contain. -/
theorem NS_query_strict_subdomain (L : Lib) (n : Nameserver) (r : Msg) (q : Question)
    (qs : List Question) (p : String) (hb : n.cfg.baseDomain ≠ "")
    (hs : n.cfg.serverIP ≠ "") (hq : r.Question = q :: qs) (ht : q.Qtype = TypeNS)
    (hp : p ≠ "") (hname : q.Name = p ++ "." ++ pdom n.cfg.baseDomain) :
    ∃ m, handleRequest L n r = some [m] ∧ m.Answer = [] := by
  obtain ⟨m, hm, ha⟩ := handleRequest_NS L n r q qs hb hs hq ht
  refine ⟨m, hm, ?_⟩
  rw [ha, if_neg]
  intro heq
  have hlen := congrArg String.length heq
  rw [ToLower_length, hname, String.length_append, String.length_append] at hlen
  have hp0 : p.length ≠ 0 := by
    intro h0
    apply hp
    apply String.ext
    exact List.length_eq_zero.mp h0
  have hdot : ".".length = 1 := rfl
  omega

/-- C5 at the NS query for `sub.example.com.`, base domain `example.com`. -/
theorem NS_query_strict_subdomain_witness :
    ∃ m, handleRequest asciiLib exampleNS
        { Id := 7, Question := [⟨"sub.example.com.", TypeNS, 1⟩] } = some [m] ∧
      m.Answer = [] :=
  NS_query_strict_subdomain asciiLib exampleNS
    { Id := 7, Question := [⟨"sub.example.com.", TypeNS, 1⟩] }
    ⟨"sub.example.com.", TypeNS, 1⟩ [] "sub" (by decide) (by decide) rfl rfl (by decide)
    (by decide)

/-- C6: on one instance, for every sequence of `AddTXT`, `AddMX`, `ClearTXT`,
`Reset` calls interleaved with queries, every reply that `handleRequest` writes
has an authority section of exactly one SOA record whose serial is the serial
fixed at `NewNameserver`, and the serial of the instance is still that value
at the end of the sequence. -/
theorem soa_serial_fixed (L : Lib) (now : Int) (cfg : Config) (mux : ServeMux)
    (ops : List Op) (m : Msg) (hm : m ∈ (run L (Proc.init now cfg mux) ops).written) :
    m.Ns = [RR.SOA ⟨pdom cfg.baseDomain, TypeSOA, ClassINET, 300, 0⟩
        ("ns1." ++ pdom cfg.baseDomain) ("hostmaster." ++ pdom cfg.baseDomain)
        (uint32 now) 900 900 1800 60] ∧
      (run L (Proc.init now cfg mux) ops).n.serial = uint32 now := by
  have h := run_soa L ops (Proc.init now cfg mux) (by intro m hm; cases hm)
  exact ⟨h.2.2 m hm, h.1⟩

/-- C6 at a run of six events and the reply to its last query. -/
theorem soa_serial_fixed_witness :
    (exampleEmptyReply "example.com." TypeTXT).Ns =
        [RR.SOA ⟨pdom "example.com", TypeSOA, ClassINET, 300, 0⟩
          ("ns1." ++ pdom "example.com") ("hostmaster." ++ pdom "example.com")
          (uint32 1700000000) 900 900 1800 60] ∧
      (run asciiLib (Proc.init 1700000000 ⟨"example.com", "10.0.0.1"⟩ [])
        [Op.AddTXT "example.com." "v" 60, Op.Query (exampleQuery "example.com." TypeTXT),
         Op.AddMX "example.com." "mx.example.com." 10 60, Op.ClearTXT, Op.Reset,
         Op.Query (exampleQuery "example.com." TypeTXT)]).n.serial = uint32 1700000000 :=
  soa_serial_fixed asciiLib 1700000000 ⟨"example.com", "10.0.0.1"⟩ []
    [Op.AddTXT "example.com." "v" 60, Op.Query (exampleQuery "example.com." TypeTXT),
     Op.AddMX "example.com." "mx.example.com." 10 60, Op.ClearTXT, Op.Reset,
     Op.Query (exampleQuery "example.com." TypeTXT)]
    (exampleEmptyReply "example.com." TypeTXT) (by decide)

/-- C7, as stated, fails: with an empty base domain the handler returns before
`WriteMsg`; for an A query no message at all is written, not even an SOA-only
one. -/
theorem unset_config_counterexample :
    handleRequest asciiLib
        { cfg := { baseDomain := "", serverIP := "10.0.0.1" }, serial := 1,
          txt := GoMap.make, mx := GoMap.make }
        (exampleQuery "example.com." TypeA) = some [] ∧
      ¬ ∃ m ws, handleRequest asciiLib
        { cfg := { baseDomain := "", serverIP := "10.0.0.1" }, serial := 1,
          txt := GoMap.make, mx := GoMap.make }
        (exampleQuery "example.com." TypeA) = some (m :: ws) := by
  have h : handleRequest asciiLib
      { cfg := { baseDomain := "", serverIP := "10.0.0.1" }, serial := 1,
        txt := GoMap.make, mx := GoMap.make }
      (exampleQuery "example.com." TypeA) = some [] := rfl
  refine ⟨h, ?_⟩
  rintro ⟨m, ws, hw⟩
  rw [h] at hw
  cases hw

/-- C7 (amended): if the base domain or the service address is the empty
string, then for every query of every type `handleRequest` returns normally
without writing any reply: nothing is sent to the requester, neither answer
records nor an SOA record. -/
theorem unset_config_no_reply (L : Lib) (n : Nameserver) (r : Msg)
    (h : n.cfg.baseDomain = "" ∨ n.cfg.serverIP = "") :
    handleRequest L n r = some [] :=
  handleRequest_unset L n r h

/-- The amended C7 at an instance with an empty service address. -/
theorem unset_config_no_reply_witness :
    handleRequest asciiLib
        { cfg := { baseDomain := "example.com", serverIP := "" }, serial := 1,
          txt := GoMap.make, mx := GoMap.make }
        (exampleQuery "example.com." TypeNS) = some [] :=
  unset_config_no_reply asciiLib
    { cfg := { baseDomain := "example.com", serverIP := "" }, serial := 1,
      txt := GoMap.make, mx := GoMap.make }
    (exampleQuery "example.com." TypeNS) (by decide)

/-- C8: if the base domain or the service address is the empty string, then
for every query of every type and every content of the TXT and MX stores,
`handleRequest` returns and the messages it wrote hold zero answer records in
total. -/
theorem unset_config_zero_answers (L : Lib) (n : Nameserver) (r : Msg)
    (h : n.cfg.baseDomain = "" ∨ n.cfg.serverIP = "") :
    ∃ ws, handleRequest L n r = some ws ∧
      (ws.map (fun m => m.Answer.length)).sum = 0 :=
  ⟨[], handleRequest_unset L n r h, rfl⟩

/-- C8 at an instance with an empty base domain whose TXT store holds the
queried name. -/
theorem unset_config_zero_answers_witness :
    ∃ ws, handleRequest asciiLib
        (AddTXT { cfg := { baseDomain := "", serverIP := "10.0.0.1" }, serial := 1,
                  txt := GoMap.make, mx := GoMap.make } "example.com." "v" 60)
        (exampleQuery "example.com." TypeTXT) = some ws ∧
      (ws.map (fun m => m.Answer.length)).sum = 0 :=
  unset_config_zero_answers asciiLib
    (AddTXT { cfg := { baseDomain := "", serverIP := "10.0.0.1" }, serial := 1,
              txt := GoMap.make, mx := GoMap.make } "example.com." "v" 60)
    (exampleQuery "example.com." TypeTXT) (by decide)

/-- C9: for every state of the instance, after `ClearTXT()` every TXT query,
for every name, is handled without a TXT answer: the handler returns and every
message it wrote has an empty answer section. -/
theorem clearTXT_then_no_answer (L : Lib) (n : Nameserver) (r : Msg) (q : Question)
    (qs : List Question) (hq : r.Question = q :: qs) (ht : q.Qtype = TypeTXT) :
    ∃ ws, handleRequest L (ClearTXT n) r = some ws ∧ ∀ m ∈ ws, m.Answer = [] := by
  by_cases hc : n.cfg.baseDomain = "" ∨ n.cfg.serverIP = ""
  · exact ⟨[], handleRequest_unset L (ClearTXT n) r hc, by simp⟩
  · have hb : (ClearTXT n).cfg.baseDomain ≠ "" := fun e => hc (Or.inl e)
    have hs : (ClearTXT n).cfg.serverIP ≠ "" := fun e => hc (Or.inr e)
    obtain ⟨m, hm, ha⟩ := handleRequest_TXT L (ClearTXT n) r q qs hb hs hq ht
    refine ⟨[m], hm, ?_⟩
    intro m' hm'
    simp at hm'
    rw [hm', ha]
    simp [ClearTXT, GoMap.make]

/-- C9 at `AddTXT("example.com.", "v", 60)`, `ClearTXT()` and the TXT query for
`example.com.`. -/
theorem clearTXT_then_no_answer_witness :
    ∃ ws, handleRequest asciiLib (ClearTXT (AddTXT exampleNS "example.com." "v" 60))
        (exampleQuery "example.com." TypeTXT) = some ws ∧ ∀ m ∈ ws, m.Answer = [] :=
  clearTXT_then_no_answer asciiLib (AddTXT exampleNS "example.com." "v" 60)
    (exampleQuery "example.com." TypeTXT) ⟨"example.com.", TypeTXT, ClassINET⟩ [] rfl rfl

/-- C10, as stated, fails: `AddTXT` and `AddMX` use the name as given for the
key. After `NewNameserver` and `AddTXT("Example.COM", "v", 60)` the TXT store
has the key `Example.COM`, which is neither lower case nor dot-terminated. -/
theorem keys_normalised_counterexample :
    ((run asciiLib (Proc.init 1700000000 ⟨"example.com", "10.0.0.1"⟩ [])
        [Op.AddTXT "Example.COM" "v" 60]).n.txt "Example.COM").isSome = true ∧
      ToLower asciiLib "Example.COM" ≠ "Example.COM" ∧
      "Example.COM".data.getLast? ≠ some '.' ∧
      ¬ LowerDotted asciiLib "Example.COM" := by
  decide

/-- C10 (amended): in every state reached from `NewNameserver` by a sequence of
`AddTXT`, `AddMX`, `ClearTXT`, `Reset` calls (and queries) in which every
`fqdn` argument of `AddTXT` and `AddMX` is lower case and ends with a dot,
every key of the TXT store and of the MX store is lower case and ends with a
dot. The stores keep the names exactly as they were passed in. -/
theorem keys_lower_dotted (L : Lib) (now : Int) (cfg : Config) (mux : ServeMux)
    (ops : List Op) (k : String) (hops : ∀ op ∈ ops, op.keyLowerDotted L)
    (hk : ((run L (Proc.init now cfg mux) ops).n.txt k).isSome ∨
      ((run L (Proc.init now cfg mux) ops).n.mx k).isSome) :
    LowerDotted L k := by
  have h := run_keys L ops (Proc.init now cfg mux) hops
    (by intro k; simp [Proc.init, NewNameserver, GoMap.make]) k
  rcases hk with hk | hk
  · exact h.1 hk
  · exact h.2 hk

/-- The amended C10 at a run of six events and the key `_dmarc.example.com.` of
its TXT store. -/
theorem keys_lower_dotted_witness : LowerDotted asciiLib "_dmarc.example.com." :=
  keys_lower_dotted asciiLib 1700000000 ⟨"example.com", "10.0.0.1"⟩ []
    [Op.AddMX "example.com." "mxa.mailgun.org." 10 60,
     Op.AddTXT "example.com." "v=spf1 include:mailgun.org ~all" 60, Op.ClearTXT,
     Op.AddTXT "_dmarc.example.com." "v=DMARC1; p=none" 60, Op.Reset,
     Op.Query (exampleQuery "_dmarc.example.com." TypeTXT)]
    "_dmarc.example.com." (by decide) (by decide)

/-- C11: `AddTXT` and `AddMX` are idempotent upserts, last write wins.
Applying `AddTXT(f, v, t)` twice gives the state of applying it once; after
`AddTXT(f, v1, t1)` then `AddTXT(f, v2, t2)` the TXT store holds `{f, v2, t2}`
under `f` and the whole state equals the state after `AddTXT(f, v2, t2)` alone.
The same holds for `AddMX` with its preference field. -/
theorem upsert_last_write_wins (n : Nameserver) (f v v1 v2 : String)
    (t t1 t2 p p1 p2 : Int) :
    AddTXT (AddTXT n f v t) f v t = AddTXT n f v t ∧
    (AddTXT (AddTXT n f v1 t1) f v2 t2).txt f = some { fqdn := f, value := v2, ttl := t2 } ∧
    AddTXT (AddTXT n f v1 t1) f v2 t2 = AddTXT n f v2 t2 ∧
    AddMX (AddMX n f v p t) f v p t = AddMX n f v p t ∧
    (AddMX (AddMX n f v1 p1 t1) f v2 p2 t2).mx f =
      some { fqdn := f, value := v2, preference := p2, ttl := t2 } ∧
    AddMX (AddMX n f v1 p1 t1) f v2 p2 t2 = AddMX n f v2 p2 t2 := by
  refine ⟨?_, ?_, ?_, ?_, ?_, ?_⟩
  · simp [AddTXT, GoMap.set_set]
  · simp [AddTXT, GoMap.set_self]
  · simp [AddTXT, GoMap.set_set]
  · simp [AddMX, GoMap.set_set]
  · simp [AddMX, GoMap.set_self]
  · simp [AddMX, GoMap.set_set]

/-- C12: with the configuration set, a TXT (resp. MX) query whose lower-cased
question name is not itself a key of the TXT (resp. MX) store gets one reply
with an empty answer section and the SOA record as its only authority record,
whatever other keys the stores hold. -/
theorem exact_match_only (L : Lib) (n : Nameserver) (r : Msg) (q : Question)
    (qs : List Question) (hb : n.cfg.baseDomain ≠ "") (hs : n.cfg.serverIP ≠ "")
    (hq : r.Question = q :: qs)
    (hmiss : (q.Qtype = TypeTXT ∧ n.txt (ToLower L q.Name) = none) ∨
      (q.Qtype = TypeMX ∧ n.mx (ToLower L q.Name) = none)) :
    ∃ m, handleRequest L n r = some [m] ∧ m.Answer = [] ∧
      m.Ns = [RR.SOA ⟨pdom n.cfg.baseDomain, TypeSOA, ClassINET, 300, 0⟩
        ("ns1." ++ pdom n.cfg.baseDomain) ("hostmaster." ++ pdom n.cfg.baseDomain)
        n.serial 900 900 1800 60] := by
  obtain ⟨m, hm, hns⟩ := handleRequest_set L n r q qs hb hs hq
  refine ⟨m, hm, ?_, hns⟩
  rcases hmiss with ⟨ht, hnone⟩ | ⟨ht, hnone⟩
  · obtain ⟨m', hm', ha⟩ := handleRequest_TXT L n r q qs hb hs hq ht
    rw [hm] at hm'
    cases hm'
    rw [ha, hnone]
  · obtain ⟨m', hm', ha⟩ := handleRequest_MX L n r q qs hb hs hq ht
    rw [hm] at hm'
    cases hm'
    rw [ha, hnone]

/-- C12 at a TXT store holding `example.com.` and `a.sub.example.com.` and the
TXT query for `sub.example.com.`. -/
theorem exact_match_only_witness :
    ∃ m, handleRequest asciiLib
        (AddTXT (AddTXT exampleNS "example.com." "v" 60) "a.sub.example.com." "w" 60)
        (exampleQuery "Sub.example.com." TypeTXT) = some [m] ∧ m.Answer = [] ∧
      m.Ns = [RR.SOA ⟨pdom "example.com", TypeSOA, ClassINET, 300, 0⟩
        ("ns1." ++ pdom "example.com") ("hostmaster." ++ pdom "example.com")
        (uint32 1700000000) 900 900 1800 60] :=
  exact_match_only asciiLib
    (AddTXT (AddTXT exampleNS "example.com." "v" 60) "a.sub.example.com." "w" 60)
    (exampleQuery "Sub.example.com." TypeTXT) ⟨"Sub.example.com.", TypeTXT, ClassINET⟩ []
    (by decide) (by decide) rfl (Or.inl ⟨rfl, by decide⟩)

/-- C13: with the configuration set, the reply to a request carries as its
authority section one SOA record with owner `<base>.`, primary nameserver
`ns1.<base>.`, mailbox `hostmaster.<base>.`, the serial of the instance,
refresh 900, retry 900, expire 1800, minimum TTL 60 and record TTL 300, where
`<base>.` is `pdom(baseDomain)`, the base domain with one dot appended. -/
theorem soa_fields (L : Lib) (n : Nameserver) (r : Msg) (q : Question)
    (qs : List Question) (hb : n.cfg.baseDomain ≠ "") (hs : n.cfg.serverIP ≠ "")
    (hq : r.Question = q :: qs) :
    pdom n.cfg.baseDomain = n.cfg.baseDomain ++ "." ∧
    ∃ m, handleRequest L n r = some [m] ∧
      m.Ns = [RR.SOA
        { Name := pdom n.cfg.baseDomain, Rrtype := TypeSOA, Class := ClassINET, Ttl := 300 }
        ("ns1." ++ pdom n.cfg.baseDomain) ("hostmaster." ++ pdom n.cfg.baseDomain)
        n.serial 900 900 1800 60] :=
  ⟨rfl, handleRequest_set L n r q qs hb hs hq⟩

/-- C13 at the A query for `www.example.com.`, base domain `example.com`. -/
theorem soa_fields_witness :
    pdom exampleNS.cfg.baseDomain = exampleNS.cfg.baseDomain ++ "." ∧
    ∃ m, handleRequest asciiLib exampleNS (exampleQuery "www.example.com." TypeA) = some [m] ∧
      m.Ns = [RR.SOA
        { Name := "example.com.", Rrtype := TypeSOA, Class := ClassINET, Ttl := 300 }
        "ns1.example.com." "hostmaster.example.com." 1700000000 900 900 1800 60] :=
  soa_fields asciiLib exampleNS (exampleQuery "www.example.com." TypeA)
    ⟨"www.example.com.", TypeA, ClassINET⟩ [] (by decide) (by decide) rfl

/-- C14: with the configuration set, a query whose first question has a type
other than A, NS, TXT and MX gets one reply with an empty answer section, for
every question name and every store content. -/
theorem other_type_no_answer (L : Lib) (n : Nameserver) (r : Msg) (q : Question)
    (qs : List Question) (hb : n.cfg.baseDomain ≠ "") (hs : n.cfg.serverIP ≠ "")
    (hq : r.Question = q :: qs) (hA : q.Qtype ≠ TypeA) (hN : q.Qtype ≠ TypeNS)
    (hT : q.Qtype ≠ TypeTXT) (hM : q.Qtype ≠ TypeMX) :
    ∃ m, handleRequest L n r = some [m] ∧ m.Answer = [] :=
  handleRequest_other L n r q qs hb hs hq hA hN hT hM

/-- C14 at the AAAA (type 28) query for `example.com.`, with TXT and MX records
stored under that name. -/
theorem other_type_no_answer_witness :
    ∃ m, handleRequest asciiLib
        (AddMX (AddTXT exampleNS "example.com." "v" 60) "example.com." "mx.example.com." 10 60)
        (exampleQuery "example.com." 28) = some [m] ∧ m.Answer = [] :=
  other_type_no_answer asciiLib
    (AddMX (AddTXT exampleNS "example.com." "v" 60) "example.com." "mx.example.com." 10 60)
    (exampleQuery "example.com." 28) ⟨"example.com.", 28, ClassINET⟩ []
    (by decide) (by decide) rfl (by decide) (by decide) (by decide) (by decide)

/-- C15: a record exists only if explicitly inserted. Right after
`NewNameserver` both stores are empty; after any sequence of `AddTXT`, `AddMX`,
`ClearTXT`, `Reset` calls (and queries that carry a question) the keys of the
TXT store are exactly the `fqdn` arguments of the `AddTXT` calls made after the
last `ClearTXT`, and the keys of the MX store are exactly the `fqdn` arguments
of all `AddMX` calls; a query leaves both stores as they were. -/
theorem stores_hold_inserted_only (L : Lib) (now : Int) (cfg : Config) (mux : ServeMux)
    (ops : List Op) (k : String) (p : Proc) (r : Msg)
    (hops : ∀ o ∈ ops, o.hasQuestion) :
    (Proc.init now cfg mux).n.txt k = none ∧ (Proc.init now cfg mux).n.mx k = none ∧
    (((run L (Proc.init now cfg mux) ops).n.txt k).isSome ↔ k ∈ txtInserted ops) ∧
    (((run L (Proc.init now cfg mux) ops).n.mx k).isSome ↔ k ∈ mxInserted ops) ∧
    (∀ p', step L p (Op.Query r) = some p' → p'.n.txt = p.n.txt ∧ p'.n.mx = p.n.mx) := by
  have h := run_inserted L ops (Proc.init now cfg mux) hops (fun _ => rfl) (fun _ => rfl) k
  refine ⟨rfl, rfl, h.1, h.2, ?_⟩
  intro p' hp'
  have hn := step_n L p p' (Op.Query r) hp'
  simp only at hn
  rw [hn]
  exact ⟨rfl, rfl⟩

/-- C15 at a run of seven events and the name `_dmarc.example.com.`, inserted
after the `ClearTXT`. -/
theorem stores_hold_inserted_only_witness :
    (Proc.init 1700000000 ⟨"example.com", "10.0.0.1"⟩ []).n.txt "_dmarc.example.com." = none ∧
    (Proc.init 1700000000 ⟨"example.com", "10.0.0.1"⟩ []).n.mx "_dmarc.example.com." = none ∧
    (((run asciiLib (Proc.init 1700000000 ⟨"example.com", "10.0.0.1"⟩ [])
        [Op.AddTXT "example.com." "v=spf1 ~all" 60,
         Op.Query (exampleQuery "example.com." TypeTXT), Op.ClearTXT,
         Op.AddMX "example.com." "mxa.mailgun.org." 10 60,
         Op.AddTXT "_dmarc.example.com." "v=DMARC1; p=none" 60, Op.Reset,
         Op.Query (exampleQuery "example.com." TypeMX)]).n.txt
          "_dmarc.example.com.").isSome ↔
      "_dmarc.example.com." ∈ txtInserted
        [Op.AddTXT "example.com." "v=spf1 ~all" 60,
         Op.Query (exampleQuery "example.com." TypeTXT), Op.ClearTXT,
         Op.AddMX "example.com." "mxa.mailgun.org." 10 60,
         Op.AddTXT "_dmarc.example.com." "v=DMARC1; p=none" 60, Op.Reset,
         Op.Query (exampleQuery "example.com." TypeMX)]) ∧
    (((run asciiLib (Proc.init 1700000000 ⟨"example.com", "10.0.0.1"⟩ [])
        [Op.AddTXT "example.com." "v=spf1 ~all" 60,
         Op.Query (exampleQuery "example.com." TypeTXT), Op.ClearTXT,
         Op.AddMX "example.com." "mxa.mailgun.org." 10 60,
         Op.AddTXT "_dmarc.example.com." "v=DMARC1; p=none" 60, Op.Reset,
         Op.Query (exampleQuery "example.com." TypeMX)]).n.mx
          "_dmarc.example.com.").isSome ↔
      "_dmarc.example.com." ∈ mxInserted
        [Op.AddTXT "example.com." "v=spf1 ~all" 60,
         Op.Query (exampleQuery "example.com." TypeTXT), Op.ClearTXT,
         Op.AddMX "example.com." "mxa.mailgun.org." 10 60,
         Op.AddTXT "_dmarc.example.com." "v=DMARC1; p=none" 60, Op.Reset,
         Op.Query (exampleQuery "example.com." TypeMX)]) ∧
    (∀ p', step asciiLib (Proc.init 1700000000 ⟨"example.com", "10.0.0.1"⟩ [])
        (Op.Query (exampleQuery "example.com." TypeTXT)) = some p' →
      p'.n.txt = (Proc.init 1700000000 ⟨"example.com", "10.0.0.1"⟩ []).n.txt ∧
      p'.n.mx = (Proc.init 1700000000 ⟨"example.com", "10.0.0.1"⟩ []).n.mx) :=
  stores_hold_inserted_only asciiLib 1700000000 ⟨"example.com", "10.0.0.1"⟩ []
    [Op.AddTXT "example.com." "v=spf1 ~all" 60,
     Op.Query (exampleQuery "example.com." TypeTXT), Op.ClearTXT,
     Op.AddMX "example.com." "mxa.mailgun.org." 10 60,
     Op.AddTXT "_dmarc.example.com." "v=DMARC1; p=none" 60, Op.Reset,
     Op.Query (exampleQuery "example.com." TypeMX)]
    "_dmarc.example.com." (Proc.init 1700000000 ⟨"example.com", "10.0.0.1"⟩ [])
    (exampleQuery "example.com." TypeTXT) (by decide)

/-- C16: exactly one question per message is consulted. With the configuration
set, a request with a non-empty question list never fails on `Question[0]` and
gets exactly one reply, and two requests with the same first question get
replies with equal answer sections and equal authority sections, whatever
further questions they carry. -/
theorem first_question_only (L : Lib) (n : Nameserver) (r1 r2 : Msg) (q : Question)
    (qs1 qs2 : List Question) (hb : n.cfg.baseDomain ≠ "") (hs : n.cfg.serverIP ≠ "")
    (hq1 : r1.Question = q :: qs1) (hq2 : r2.Question = q :: qs2) :
    ∃ m1 m2, handleRequest L n r1 = some [m1] ∧ handleRequest L n r2 = some [m2] ∧
      m1.Answer = m2.Answer ∧ m1.Ns = m2.Ns := by
  obtain ⟨ans, h⟩ := handleRequest_first_question L n q hb hs
  obtain ⟨m1, hm1, ha1, hn1⟩ := h r1 qs1 hq1
  obtain ⟨m2, hm2, ha2, hn2⟩ := h r2 qs2 hq2
  exact ⟨m1, m2, hm1, hm2, ha1.trans ha2.symm, hn1.trans hn2.symm⟩

/-- C16 at a one-question TXT request and a request with the same first
question followed by an A question. -/
theorem first_question_only_witness :
    ∃ m1 m2,
      handleRequest asciiLib (AddTXT exampleNS "example.com." "v" 60)
        { Id := 7, Question := [⟨"example.com.", TypeTXT, 1⟩] } = some [m1] ∧
      handleRequest asciiLib (AddTXT exampleNS "example.com." "v" 60)
        { Id := 9, Question := [⟨"example.com.", TypeTXT, 1⟩, ⟨"www.example.com.", TypeA, 1⟩] }
        = some [m2] ∧
      m1.Answer = m2.Answer ∧ m1.Ns = m2.Ns :=
  first_question_only asciiLib (AddTXT exampleNS "example.com." "v" 60)
    { Id := 7, Question := [⟨"example.com.", TypeTXT, 1⟩] }
    { Id := 9, Question := [⟨"example.com.", TypeTXT, 1⟩, ⟨"www.example.com.", TypeA, 1⟩] }
    ⟨"example.com.", TypeTXT, 1⟩ [] [⟨"www.example.com.", TypeA, 1⟩]
    (by decide) (by decide) rfl rfl

/-- C17: administrative operations touch only their own entry. `AddTXT(f, v, t)`
leaves the MX store, the serial, the configuration and every TXT entry under a
key other than `f` unchanged; `AddMX(f, h, p, t)` leaves the TXT store, the
serial, the configuration and every MX entry under a key other than `f`
unchanged; `ClearTXT` leaves the MX store, the serial and the configuration
unchanged. -/
theorem admin_frame (n : Nameserver) (f v h k : String) (p t : Int) (hk : k ≠ f) :
    ((AddTXT n f v t).mx = n.mx ∧ (AddTXT n f v t).serial = n.serial ∧
      (AddTXT n f v t).cfg = n.cfg ∧ (AddTXT n f v t).txt k = n.txt k) ∧
    ((AddMX n f h p t).txt = n.txt ∧ (AddMX n f h p t).serial = n.serial ∧
      (AddMX n f h p t).cfg = n.cfg ∧ (AddMX n f h p t).mx k = n.mx k) ∧
    ((ClearTXT n).mx = n.mx ∧ (ClearTXT n).serial = n.serial ∧
      (ClearTXT n).cfg = n.cfg) :=
  ⟨⟨rfl, rfl, rfl, GoMap.set_other _ _ _ _ hk⟩, ⟨rfl, rfl, rfl, GoMap.set_other _ _ _ _ hk⟩,
    ⟨rfl, rfl, rfl⟩⟩

/-- C17 at `f = "_dmarc.example.com."` and the other key `example.com.`. -/
theorem admin_frame_witness :
    ((AddTXT exampleNS "_dmarc.example.com." "v=DMARC1; p=none" 60).mx = exampleNS.mx ∧
      (AddTXT exampleNS "_dmarc.example.com." "v=DMARC1; p=none" 60).serial = exampleNS.serial ∧
      (AddTXT exampleNS "_dmarc.example.com." "v=DMARC1; p=none" 60).cfg = exampleNS.cfg ∧
      (AddTXT exampleNS "_dmarc.example.com." "v=DMARC1; p=none" 60).txt "example.com." =
        exampleNS.txt "example.com.") ∧
    ((AddMX exampleNS "_dmarc.example.com." "mxa.mailgun.org." 10 60).txt = exampleNS.txt ∧
      (AddMX exampleNS "_dmarc.example.com." "mxa.mailgun.org." 10 60).serial =
        exampleNS.serial ∧
      (AddMX exampleNS "_dmarc.example.com." "mxa.mailgun.org." 10 60).cfg = exampleNS.cfg ∧
      (AddMX exampleNS "_dmarc.example.com." "mxa.mailgun.org." 10 60).mx "example.com." =
        exampleNS.mx "example.com.") ∧
    ((ClearTXT exampleNS).mx = exampleNS.mx ∧ (ClearTXT exampleNS).serial = exampleNS.serial ∧
      (ClearTXT exampleNS).cfg = exampleNS.cfg) :=
  admin_frame exampleNS "_dmarc.example.com." "v=DMARC1; p=none" "mxa.mailgun.org."
    "example.com." 10 60 (by decide)

/-- C18: the stored `ttl` and `preference` are narrowed when an answer is
built. With the configuration set, for a found TXT record the answer TTL is
the stored ttl modulo `2^32`; for a found MX record the answer TTL is the
stored ttl modulo `2^32` and the preference is the stored preference modulo
`2^16`. So the answer carries the stored ttl unchanged exactly when
`0 ≤ ttl < 2^32`, and the stored preference unchanged exactly when
`0 ≤ preference < 2^16`. -/
theorem answer_narrowing (L : Lib) (n : Nameserver) (r : Msg) (q : Question)
    (qs : List Question) (hb : n.cfg.baseDomain ≠ "") (hs : n.cfg.serverIP ≠ "")
    (hq : r.Question = q :: qs) :
    (∀ txt : TXTField, q.Qtype = TypeTXT → n.txt (ToLower L q.Name) = some txt →
      ∃ m ttl, handleRequest L n r = some [m] ∧
        m.Answer = [RR.TXT ⟨q.Name, TypeTXT, ClassINET, ttl, 0⟩ [txt.value]] ∧
        (ttl : Int) = txt.ttl % 2 ^ 32 ∧
        ((ttl : Int) = txt.ttl ↔ 0 ≤ txt.ttl ∧ txt.ttl < 2 ^ 32)) ∧
    (∀ mx : MXField, q.Qtype = TypeMX → n.mx (ToLower L q.Name) = some mx →
      ∃ m ttl pref, handleRequest L n r = some [m] ∧
        m.Answer = [RR.MX ⟨q.Name, TypeMX, ClassINET, ttl, 0⟩ pref mx.value] ∧
        (ttl : Int) = mx.ttl % 2 ^ 32 ∧ (pref : Int) = mx.preference % 2 ^ 16 ∧
        ((ttl : Int) = mx.ttl ↔ 0 ≤ mx.ttl ∧ mx.ttl < 2 ^ 32) ∧
        ((pref : Int) = mx.preference ↔ 0 ≤ mx.preference ∧ mx.preference < 2 ^ 16)) := by
  constructor
  · intro txt ht hf
    obtain ⟨m, hm, ha⟩ := handleRequest_TXT L n r q qs hb hs hq ht
    rw [hf] at ha
    exact ⟨m, uint32 txt.ttl, hm, ha, uint32_cast _, uint32_unchanged_iff _⟩
  · intro mx ht hf
    obtain ⟨m, hm, ha⟩ := handleRequest_MX L n r q qs hb hs hq ht
    rw [hf] at ha
    exact ⟨m, uint32 mx.ttl, uint16 mx.preference, hm, ha, uint32_cast _, uint16_cast _,
      uint32_unchanged_iff _, uint16_unchanged_iff _⟩

/-- C18 at stored ttl `-1` (TXT), stored ttl `4294967356` and preference `65546`
(MX). -/
theorem answer_narrowing_witness :
    (∃ m ttl, handleRequest asciiLib exampleWideNS (exampleQuery "example.com." TypeTXT) = some [m] ∧
      m.Answer = [RR.TXT ⟨"example.com.", TypeTXT, ClassINET, ttl, 0⟩ ["v"]] ∧
      (ttl : Int) = (-1) % 2 ^ 32 ∧
      ((ttl : Int) = -1 ↔ 0 ≤ (-1 : Int) ∧ (-1 : Int) < 2 ^ 32)) ∧
    (∃ m ttl pref, handleRequest asciiLib exampleWideNS (exampleQuery "example.com." TypeMX)
        = some [m] ∧
      m.Answer = [RR.MX ⟨"example.com.", TypeMX, ClassINET, ttl, 0⟩ pref "mx.example.com."] ∧
      (ttl : Int) = 4294967356 % 2 ^ 32 ∧ (pref : Int) = 65546 % 2 ^ 16 ∧
      ((ttl : Int) = 4294967356 ↔ 0 ≤ (4294967356 : Int) ∧ (4294967356 : Int) < 2 ^ 32) ∧
      ((pref : Int) = 65546 ↔ 0 ≤ (65546 : Int) ∧ (65546 : Int) < 2 ^ 16)) :=
  ⟨(answer_narrowing asciiLib exampleWideNS (exampleQuery "example.com." TypeTXT)
      ⟨"example.com.", TypeTXT, ClassINET⟩ [] (by decide) (by decide) rfl).1
      { fqdn := "example.com.", value := "v", ttl := -1 } rfl (by decide),
   (answer_narrowing asciiLib exampleWideNS (exampleQuery "example.com." TypeMX)
      ⟨"example.com.", TypeMX, ClassINET⟩ [] (by decide) (by decide) rfl).2
      { fqdn := "example.com.", value := "mx.example.com.", preference := 65546,
        ttl := 4294967356 } rfl (by decide)⟩

end Core
